import Mathlib

/-
  Verification development for the rag-assistant document pipeline
  (src/modules/loader.py and src/rag_core.py), shallowly embedded in Lean 4.

  External collaborators (the unstructured partitioner, the langchain
  RecursiveCharacterTextSplitter, sha1 hashing, os.path.abspath, uuid
  generation) are modelled as function parameters: the embedded code is
  faithful to loader.py / rag_core.py for EVERY choice of these functions.
-/

namespace RagAssistant

/-- A content element produced by the format parser (unstructured):
`text` is the element text (empty string models an element without text),
`category` its category tag rendered as a string (none models a missing
category attribute). -/
structure Element where
  text : String
  category : Option String
deriving DecidableEq, Repr

/-- The per-document metadata record built by `_elements_to_docs` in
loader.py: file_label, source_id, source (file name), path (absolute
path), ext. -/
structure DocMeta where
  file_label : String
  source_id : String
  source : String
  path : String
  ext : String
deriving DecidableEq, Repr

/-- A langchain `Document`: page content plus the metadata record. -/
structure Document where
  page_content : String
  metadata : DocMeta
deriving DecidableEq, Repr

/-- A manifest entry as built by `_parse_one_file` in loader.py:
`{file_label, source_id, filename, path, ext}`. -/
structure ManifestEntry where
  file_label : String
  source_id : String
  filename : String
  path : String
  ext : String
deriving DecidableEq, Repr

/-- The metadata of a chunk produced by `split_documents`: the Python code
copies the document metadata dict and then adds the four chunk keys, so a
chunk's metadata is exactly the inherited provenance record `prov` plus
`chunk_index`, `chunk_id`, `char_start`, `char_end`. -/
structure ChunkMeta where
  prov : DocMeta
  chunk_index : Nat
  chunk_id : String
  char_start : Nat
  char_end : Nat
deriving DecidableEq, Repr

/-- A chunk document emitted by `split_documents`. -/
structure ChunkDoc where
  page_content : String
  metadata : ChunkMeta
deriving DecidableEq, Repr

/-- A document as returned by retrieval and consumed by
`get_rag_response` in rag_core.py. The code reads each metadata field
with `meta.get(key) or fallback`, collapsing a missing or empty value;
we model the already-collapsed string fields, with `""` standing for a
missing value, and `score` as the optional raw score. -/
structure RetrievedDoc where
  page_content : String
  file_label : String
  source_id : String
  source : String
  path : String
  ext : String
  score : Option Int
deriving DecidableEq, Repr

/-- A reference record of `get_rag_response`. -/
structure Reference where
  file_label : String
  source_id : String
  source : String
  path : String
  ext : String
  score : Option Int
  snippet : String
deriving DecidableEq, Repr

/-- The result dictionary of `get_rag_response`. -/
structure RagResponse where
  answer : String
  references : List Reference
  footer : String
deriving DecidableEq, Repr

/-! ## String utilities modelling the Python library functions used

All of them recurse structurally over the character list of the string,
so that they evaluate inside the kernel. -/

/-- Models Python `str.strip()`: remove whitespace from both ends. -/
def pyStrip (s : String) : String :=
  ⟨((s.data.dropWhile Char.isWhitespace).reverse.dropWhile
      Char.isWhitespace).reverse⟩

/-- Models Python `(s or "").strip()` (`_normalize_text` in loader.py). -/
def normalize_text (s : String) : String := pyStrip s

/-- Models Python `s[:n]`: the first `n` characters. -/
def pyTake (n : Nat) (s : String) : String := ⟨s.data.take n⟩

/-- Models Python `str.lower()` on ASCII extensions. -/
def pyLower (s : String) : String := ⟨s.data.map Char.toLower⟩

/-- Models posix `os.path.basename`: the part after the last slash. -/
def pyBasename (s : String) : String :=
  ⟨s.data.foldl (fun acc c => if c = '/' then [] else acc ++ [c]) []⟩

/-- Models the extension part of `os.path.splitext`: the suffix starting
at the last dot of the basename, provided some earlier character of the
basename is not a dot (so `.bashrc` has no extension). -/
def splitextExt (p : String) : String :=
  let b := pyBasename p
  let cs := b.data
  match (List.range cs.length).filter (fun i => cs.getD i ' ' = '.') |>.getLast? with
  | none => ""
  | some di =>
      if (List.range di).any (fun i => cs.getD i ' ' ≠ '.') then
        ⟨cs.drop di⟩
      else ""

/-- Models `os.path.splitext(path)[-1].lower()` as used in loader.py. -/
def extOf (p : String) : String := pyLower (splitextExt p)

/-- Models Python `str.strip(chars)`: remove characters of `cs` from both
ends of the string. -/
def stripChars (cs : List Char) (s : String) : String :=
  ⟨((s.data.dropWhile (fun c => cs.contains c)).reverse.dropWhile
      (fun c => cs.contains c)).reverse⟩

/-- Digit-sequence value for `pyInt`: a nonempty run of ASCII digits in
which a single underscore may separate two digits (Python number
grammar); returns none on any other shape. -/
def pyDigitsAux : List Char → Nat → Option Nat
  | [], acc => some acc
  | '_' :: c :: rest, acc =>
      if c.isDigit then pyDigitsAux rest (acc * 10 + (c.toNat - 48)) else none
  | ['_'], _ => none
  | c :: rest, acc =>
      if c.isDigit then pyDigitsAux rest (acc * 10 + (c.toNat - 48)) else none

/-- Value of a digit run, in the Python `int` grammar. -/
def pyDigits : List Char → Option Nat
  | [] => none
  | c :: rest =>
      if c.isDigit then pyDigitsAux rest (c.toNat - 48) else none

/-- Models Python `int(s)` on decimal strings: optional surrounding
whitespace, optional sign, then digits (underscores allowed between
digits); none when `int` would raise. -/
def pyInt (s : String) : Option Int :=
  match (pyStrip s).data with
  | '+' :: rest => (pyDigits rest).map Int.ofNat
  | '-' :: rest => (pyDigits rest).map (fun n => -(n : Int))
  | l => (pyDigits l).map Int.ofNat

/-! ## loader.py constants -/

/-- `SUPPORTED_EXTS` in loader.py (a Python set; we keep a list and use
it only through membership and through `sorted`). -/
def SUPPORTED_EXTS : List String :=
  [".txt", ".md", ".html", ".htm", ".docx", ".pptx", ".pdf"]

/-- `DROP_CATEGORIES_FOR_DOCX_PDF` in loader.py. -/
def DROP_CATEGORIES_FOR_DOCX_PDF : List String :=
  ["Header", "Footer", "PageNumber"]

/-- Lexicographic comparison of character lists by code point, the order
Python uses to compare strings. -/
def charsLE : List Char → List Char → Bool
  | [], _ => true
  | _ :: _, [] => false
  | a :: as, b :: bs => if a = b then charsLE as bs else decide (a < b)

/-- Python string `<=`, lexicographic by code point. -/
def pyStrLE (a b : String) : Prop := charsLE a.data b.data = true

instance : DecidableRel pyStrLE := fun a b => by
  unfold pyStrLE; infer_instance

/-- `sorted(SUPPORTED_EXTS)`: Python sorts strings lexicographically by
code point; modelled with a stable sort under the same order (Python
`sorted` is stable, and the sorted stable permutation is unique, so any
stable sort is a faithful model). -/
def sortedSupportedExts : List String :=
  SUPPORTED_EXTS.insertionSort pyStrLE

/-- The message of the `ValueError` raised by `_parse_one_file` on an
unsupported extension. -/
def unsupportedFormatMessage (ext : String) : String :=
  "暂不支持的文件类型: " ++ ext ++ "（支持：" ++
    String.intercalate ", " sortedSupportedExts ++ "）"

/-- The message of the `ValueError` raised by `load_multiple_documents`
when too many files are uploaded. -/
def tooManyFilesMessage (limit : Nat) : String :=
  "最多仅支持上传 " ++ toString limit ++ " 个文件，请减少文件数量后重试。"

/-! ## loader.py: parsing and the manifest

The unstructured partitioner is an external library; it is modelled as a
function argument `partitionFn : String → List Element` (the elements it
returns for a path). Likewise `_hash_path` (a sha1 digest of the absolute
path) and `os.path.abspath` are modelled as opaque function arguments
`hash_path` and `abspath`. -/

/-- `_elements_to_docs` in loader.py: keep elements with non-empty
normalized text and stamp the five provenance metadata fields. -/
def elements_to_docs (abspath : String → String) (path : String)
    (elements : List Element) (source_id file_label ext : String) :
    List Document :=
  (elements.filterMap (fun el =>
    let text := normalize_text el.text
    if text = "" then none
    else some { page_content := text
                metadata := { file_label := file_label
                              source_id := source_id
                              source := pyBasename path
                              path := abspath path
                              ext := ext } }))

/-- The element filter step of `_parse_one_file`: only for `.pdf` and
`.docx` files, drop elements whose category is in
`DROP_CATEGORIES_FOR_DOCX_PDF`; all other elements pass through. -/
def parsedElements (partitionFn : String → List Element) (path : String) :
    List Element :=
  let elements := partitionFn path
  if extOf path = ".pdf" ∨ extOf path = ".docx" then
    elements.filter (fun el =>
      match el.category with
      | some c => !(DROP_CATEGORIES_FOR_DOCX_PDF.contains c)
      | none => true)
  else elements

/-- `_parse_one_file` in loader.py: reject unsupported extensions, drop
Header/Footer/PageNumber elements for pdf/docx, convert elements to
documents and build the manifest item. A raised `ValueError` is modelled
as `Except.error` carrying the message. -/
def parse_one_file (partitionFn : String → List Element)
    (hash_path abspath : String → String) (path : String)
    (file_label : String) :
    Except String (List Document × ManifestEntry) :=
  if extOf path ∉ SUPPORTED_EXTS then
    .error (unsupportedFormatMessage (extOf path))
  else
    .ok (elements_to_docs abspath path (parsedElements partitionFn path)
           (hash_path path) file_label (extOf path),
         { file_label := file_label
           source_id := hash_path path
           filename := pyBasename path
           path := abspath path
           ext := extOf path })

/-- The loop of `load_multiple_documents`: `i` is the 1-based position of
the next path (from `enumerate(paths, start=1)`); a parse error aborts
the whole call, otherwise documents are concatenated and manifest items
appended in upload order. -/
def load_docs_loop (partitionFn : String → List Element)
    (hash_path abspath : String → String) :
    List String → Nat → Except String (List Document × List ManifestEntry)
  | [], _ => .ok ([], [])
  | p :: rest, i =>
    match parse_one_file partitionFn hash_path abspath p
        ("[" ++ toString i ++ "]") with
    | .error e => .error e
    | .ok (docs, item) =>
      match load_docs_loop partitionFn hash_path abspath rest (i + 1) with
      | .error e => .error e
      | .ok (ds, ms) => .ok (docs ++ ds, item :: ms)

/-- `load_multiple_documents` in loader.py: fail when more than `limit`
paths are supplied, otherwise parse each path in order with labels
`[1]`, `[2]`, … and return all documents plus the manifest. -/
def load_multiple_documents (partitionFn : String → List Element)
    (hash_path abspath : String → String) (paths : List String)
    (limit : Nat) :
    Except String (List Document × List ManifestEntry) :=
  if paths.length > limit then .error (tooManyFilesMessage limit)
  else load_docs_loop partitionFn hash_path abspath paths 1

/-! ## loader.py: merging documents per file -/

/-- First-appearance-ordered list of distinct metadata keys, as produced
by iterating a Python dict keyed by the metadata tuple. -/
def uniqueKeysAux (seen : List DocMeta) : List DocMeta → List DocMeta
  | [] => seen
  | m :: rest =>
      if seen.contains m then uniqueKeysAux seen rest
      else uniqueKeysAux (seen ++ [m]) rest

/-- `merge_docs_by_file` in loader.py: group documents by the full
metadata key in first-appearance order, join the non-empty page contents
of each group with a newline, and drop groups whose joined text trims to
empty. -/
def merge_docs_by_file (docs : List Document) : List Document :=
  (uniqueKeysAux [] (docs.map (fun d => d.metadata))).filterMap (fun k =>
    let parts := (docs.filter (fun d => d.metadata = k)).map
      (fun d => d.page_content)
    let text := String.intercalate "\n" (parts.filter (fun p => p ≠ ""))
    if pyStrip text = "" then none
    else some { page_content := text, metadata := k })

/-! ## loader.py: split_documents (the chunker)

The langchain `RecursiveCharacterTextSplitter` is external library code;
its `split_text` method is modelled as a function argument
`split_text : Nat → Nat → String → List String` (chunk_size, chunk_overlap,
body text ↦ spans). `uuid.uuid4().hex` (`_new_uuid`) is modelled as a
function argument `uuid : Nat → String`, applied to the number of chunks
emitted so far in the call. -/

/-- The inner loop of `split_documents` over the spans of one document:
`idx` is the `enumerate` index over ALL spans (dropped ones included),
`start` the running cursor, `ctr` the uuid supply counter. A span that
trims to empty is skipped; otherwise its chunk records
`char_start = start`, `char_end = start + len`, and the cursor becomes
`max 0 (char_end - chunk_overlap)` (truncated subtraction on Nat). -/
def chunk_spans_loop (uuid : Nat → String) (chunk_overlap : Nat)
    (meta : DocMeta) :
    List String → Nat → Nat → Nat → List ChunkDoc × Nat
  | [], _, _, ctr => ([], ctr)
  | s :: rest, idx, start, ctr =>
    if normalize_text s = "" then
      chunk_spans_loop uuid chunk_overlap meta rest (idx + 1) start ctr
    else
      ({ page_content := normalize_text s
         metadata := { prov := meta
                       chunk_index := idx
                       chunk_id := uuid ctr
                       char_start := start
                       char_end := start + (normalize_text s).length } } ::
         (chunk_spans_loop uuid chunk_overlap meta rest (idx + 1)
           (start + (normalize_text s).length - chunk_overlap) (ctr + 1)).1,
       (chunk_spans_loop uuid chunk_overlap meta rest (idx + 1)
         (start + (normalize_text s).length - chunk_overlap) (ctr + 1)).2)

/-- The outer loop of `split_documents` over documents, threading the
uuid counter. -/
def split_docs_loop (split_text : Nat → Nat → String → List String)
    (uuid : Nat → String) (chunk_size chunk_overlap : Nat) :
    List Document → Nat → List ChunkDoc
  | [], _ => []
  | d :: rest, ctr =>
    (chunk_spans_loop uuid chunk_overlap d.metadata
        (split_text chunk_size chunk_overlap d.page_content) 0 0 ctr).1 ++
    split_docs_loop split_text uuid chunk_size chunk_overlap rest
      (chunk_spans_loop uuid chunk_overlap d.metadata
        (split_text chunk_size chunk_overlap d.page_content) 0 0 ctr).2

/-- `split_documents` in loader.py. Its own Python defaults are
`chunk_size=100, chunk_overlap=30`; parameters are passed explicitly
here. -/
def split_documents (split_text : Nat → Nat → String → List String)
    (uuid : Nat → String) (chunk_size chunk_overlap : Nat)
    (documents : List Document) : List ChunkDoc :=
  split_docs_loop split_text uuid chunk_size chunk_overlap documents 0

/-- The Python defaults of `split_documents` itself
(`chunk_size: int = 100, chunk_overlap: int = 30`). -/
def SPLIT_DOCUMENTS_DEFAULT_CHUNK_SIZE : Nat := 100

/-- The Python default of the `chunk_overlap` parameter of
`split_documents`. -/
def SPLIT_DOCUMENTS_DEFAULT_CHUNK_OVERLAP : Nat := 30

/-! ## loader.py: build_citation_footer -/

/-- The fixed default `title` of `build_citation_footer`. -/
def citationTitle : String := "参考/引用"

/-- `_label_key` inside `build_citation_footer`: parse the label with the
bracket characters stripped from both ends as a Python int; any failure
falls back to the sentinel `10 ** 9`. -/
def label_key (lbl : String) : Int :=
  (pyInt (stripChars ['[', ']'] lbl)).getD (10 ^ 9)

/-- The key order used to sort the rendered manifest items. -/
def labelLE (a b : ManifestEntry) : Prop :=
  label_key a.file_label ≤ label_key b.file_label

instance : DecidableRel labelLE := fun a b => by
  unfold labelLE; infer_instance

/-- The filtered and sorted manifest items rendered by
`build_citation_footer`: entries whose `source_id` is in the used set,
stably sorted ascending by `_label_key`. Python `list.sort` is a stable
sort by the key, and the sorted stable permutation of a list is unique,
so the stable `List.insertionSort` is a faithful model. -/
def citationItems (used : List String) (manifest : List ManifestEntry) :
    List ManifestEntry :=
  (manifest.filter (fun m => used.contains m.source_id)).insertionSort labelLE

/-- The rendering of one footer line:
`f'{it["file_label"]} {it["filename"]}（{it["path"]}）'`. -/
def citationLine (it : ManifestEntry) : String :=
  it.file_label ++ " " ++ it.filename ++ "（" ++ it.path ++ "）"

/-- `build_citation_footer` in loader.py. The used ids are passed as a
list and consumed only through set membership, matching
`set(used_source_ids or [])`. -/
def build_citation_footer (used_source_ids : List String)
    (manifest : List ManifestEntry) : String :=
  if used_source_ids = [] then ""
  else
    String.intercalate "\n"
      (citationTitle :: (citationItems used_source_ids manifest).map citationLine)

/-! ## rag_core.py: get_rag_response (reference extraction and answer
assembly) -/

/-- The snippet of one retrieved document: trimmed page content,
truncated to `max_snippet_chars` characters with a `…` marker when it is
longer (no truncation when `max_snippet_chars` is 0, Python falsy). -/
def snippetOf (max_snippet_chars : Nat) (d : RetrievedDoc) : String :=
  let snippet := pyStrip d.page_content
  if max_snippet_chars ≠ 0 ∧ snippet.length > max_snippet_chars then
    pyTake max_snippet_chars snippet ++ "…"
  else snippet

/-- The `source` field of one retrieved document:
`meta.get("source") or os.path.basename(meta.get("path", "") or "")`. -/
def sourceOf (d : RetrievedDoc) : String :=
  if d.source ≠ "" then d.source else pyBasename d.path

/-- The reference built from one retrieved document. -/
def referenceOf (max_snippet_chars : Nat) (d : RetrievedDoc) : Reference :=
  { file_label := d.file_label
    source_id := d.source_id
    source := sourceOf d
    path := d.path
    ext := d.ext
    score := d.score
    snippet := snippetOf max_snippet_chars d }

/-- Insert into the used-id list only when absent (a Python set add,
kept as a duplicate-free list consumed through membership). -/
def addUsed (used : List String) (x : String) : List String :=
  if used.contains x then used else used ++ [x]

/-- The extraction loop of `get_rag_response`: deduplicate retrieved
documents on the key `(file_label, source, snippet)`, collect non-empty
`source_id`s into the used set, and append one reference per surviving
document, in first-seen order. Returns `(used_source_ids, refs)`. -/
def extract_refs (max_snippet_chars : Nat) :
    List RetrievedDoc → List (String × String × String) → List String →
    List Reference → List String × List Reference
  | [], _, used, refs => (used, refs)
  | d :: rest, seen, used, refs =>
    let key := (d.file_label, sourceOf d, snippetOf max_snippet_chars d)
    if seen.contains key then
      extract_refs max_snippet_chars rest seen used refs
    else
      extract_refs max_snippet_chars rest (seen ++ [key])
        (if d.source_id ≠ "" then addUsed used d.source_id else used)
        (refs ++ [referenceOf max_snippet_chars d])

/-- The used source-id set collected by `get_rag_response` for a
retrieval result. -/
def used_source_ids (max_snippet_chars : Nat)
    (src_docs : List RetrievedDoc) : List String :=
  (extract_refs max_snippet_chars src_docs [] [] []).1

/-- `get_rag_response` in rag_core.py, over the answer text and source
documents already obtained from the chain call: build the deduplicated
reference list, the footer (empty when no source id was collected), and
the final answer with the footer appended after a blank line when
`append_footer` is set and the footer is non-empty. -/
def get_rag_response (answer : String) (src_docs : List RetrievedDoc)
    (manifest : List ManifestEntry) (max_snippet_chars : Nat)
    (append_footer : Bool) : RagResponse :=
  let r := extract_refs max_snippet_chars src_docs [] [] []
  let footer_text :=
    if r.1 ≠ [] then build_citation_footer r.1 manifest else ""
  let final_answer :=
    if append_footer ∧ footer_text ≠ "" then
      answer ++ "\n\n" ++ footer_text
    else answer
  { answer := final_answer, references := r.2, footer := footer_text }

/-! ## rag_core.py: create_rag_pipeline (ingestion) -/

/-- The default `chunk_size` in the signature of `create_rag_pipeline`. -/
def CREATE_RAG_PIPELINE_DEFAULT_CHUNK_SIZE : Nat := 500

/-- The default `chunk_overlap` in the signature of
`create_rag_pipeline`. -/
def CREATE_RAG_PIPELINE_DEFAULT_CHUNK_OVERLAP : Nat := 50

/-- The default `limit` in the signature of `load_multiple_documents`,
used by `create_rag_pipeline`, which calls it without a `limit`
argument. -/
def LOAD_MULTIPLE_DOCUMENTS_DEFAULT_LIMIT : Nat := 5

/-- The ingestion stage of `create_rag_pipeline` in rag_core.py: load the
files (with the default file limit), merge documents per file, and split
the merged bodies with the given chunk size and overlap; returns the
chunks and the manifest. -/
def create_rag_pipeline_chunks (partitionFn : String → List Element)
    (hash_path abspath : String → String)
    (split_text : Nat → Nat → String → List String) (uuid : Nat → String)
    (file_paths : List String) (chunk_size chunk_overlap : Nat) :
    Except String (List ChunkDoc × List ManifestEntry) :=
  match load_multiple_documents partitionFn hash_path abspath file_paths
      LOAD_MULTIPLE_DOCUMENTS_DEFAULT_LIMIT with
  | .error e => .error e
  | .ok (docs, manifest) =>
    .ok (split_documents split_text uuid chunk_size chunk_overlap
           (merge_docs_by_file docs), manifest)

/-- `create_rag_pipeline` invoked without `chunk_size`/`chunk_overlap`
arguments, so that its declared defaults apply. -/
def create_rag_pipeline_chunks_default (partitionFn : String → List Element)
    (hash_path abspath : String → String)
    (split_text : Nat → Nat → String → List String) (uuid : Nat → String)
    (file_paths : List String) :
    Except String (List ChunkDoc × List ManifestEntry) :=
  create_rag_pipeline_chunks partitionFn hash_path abspath split_text uuid
    file_paths CREATE_RAG_PIPELINE_DEFAULT_CHUNK_SIZE
    CREATE_RAG_PIPELINE_DEFAULT_CHUNK_OVERLAP

/-! ## Helper lemmas -/

/-- On a path with a supported extension, `_parse_one_file` succeeds and
returns the converted documents and the manifest item for that path. -/
lemma parse_one_file_supported (partitionFn : String → List Element)
    (hash_path abspath : String → String) (p lbl : String)
    (h : extOf p ∈ SUPPORTED_EXTS) :
    parse_one_file partitionFn hash_path abspath p lbl =
      .ok (elements_to_docs abspath p (parsedElements partitionFn p)
             (hash_path p) lbl (extOf p),
           { file_label := lbl
             source_id := hash_path p
             filename := pyBasename p
             path := abspath p
             ext := extOf p }) := by
  rw [parse_one_file, if_neg (not_not_intro h)]

/-- The manifest built by the loading loop: one entry per path in order,
with label `[i + j]` at 0-based offset `j` when the loop starts at
ordinal `i`, and all entry fields determined by the path. -/
lemma load_docs_loop_manifest (partitionFn : String → List Element)
    (hash_path abspath : String → String) :
    ∀ (paths : List String) (i : Nat),
      (∀ p ∈ paths, extOf p ∈ SUPPORTED_EXTS) →
      ∃ (ds : List Document) (ms : List ManifestEntry),
        load_docs_loop partitionFn hash_path abspath paths i = .ok (ds, ms) ∧
        ms.length = paths.length ∧
        ∀ j p, paths[j]? = some p →
          ms[j]? = some ({ file_label := "[" ++ toString (i + j) ++ "]"
                           source_id := hash_path p
                           filename := pyBasename p
                           path := abspath p
                           ext := extOf p } : ManifestEntry) := by
  intro paths
  induction paths with
  | nil =>
      intro i _
      exact ⟨[], [], by rw [load_docs_loop], rfl, by intro j p hp; simp at hp⟩
  | cons p rest ih =>
      intro i hsupp
      have hparse := parse_one_file_supported partitionFn hash_path
        abspath p ("[" ++ toString i ++ "]") (hsupp p (List.mem_cons_self p rest))
      obtain ⟨ds, ms, hloop, hlen, hget⟩ :=
        ih (i + 1) (fun q hq => hsupp q (List.mem_cons_of_mem p hq))
      refine ⟨elements_to_docs abspath p (parsedElements partitionFn p)
          (hash_path p) ("[" ++ toString i ++ "]") (extOf p) ++ ds,
        ({ file_label := "[" ++ toString i ++ "]"
           source_id := hash_path p
           filename := pyBasename p
           path := abspath p
           ext := extOf p } : ManifestEntry) :: ms,
        ?_, by simpa using hlen, ?_⟩
      · rw [load_docs_loop, hparse, hloop]
      · intro j q hq
        match j with
        | 0 =>
            simp only [List.getElem?_cons_zero, Option.some.injEq] at hq
            subst hq
            simp
        | j + 1 =>
            simp only [List.getElem?_cons_succ] at hq ⊢
            have := hget j q hq
            have harith : i + 1 + j = i + (j + 1) := by omega
            rw [harith] at this
            exact this

/-- When some path in the batch has an unsupported extension, the loading
loop fails with the unsupported-format message of such a path. -/
lemma load_docs_loop_unsupported (partitionFn : String → List Element)
    (hash_path abspath : String → String) :
    ∀ (paths : List String) (i : Nat),
      (∃ p ∈ paths, extOf p ∉ SUPPORTED_EXTS) →
      ∃ q ∈ paths, extOf q ∉ SUPPORTED_EXTS ∧
        load_docs_loop partitionFn hash_path abspath paths i =
          .error (unsupportedFormatMessage (extOf q)) := by
  intro paths
  induction paths with
  | nil =>
      intro i h
      obtain ⟨p, hp, _⟩ := h
      simp at hp
  | cons p rest ih =>
      intro i h
      by_cases hp : extOf p ∈ SUPPORTED_EXTS
      · have hparse := parse_one_file_supported partitionFn hash_path
          abspath p ("[" ++ toString i ++ "]") hp
        have hrest : ∃ q ∈ rest, extOf q ∉ SUPPORTED_EXTS := by
          obtain ⟨x, hx, hbad⟩ := h
          rcases List.mem_cons.mp hx with rfl | hx2
          · exact absurd hp hbad
          · exact ⟨x, hx2, hbad⟩
        obtain ⟨q, hq, hbad, herr⟩ := ih (i + 1) hrest
        refine ⟨q, List.mem_cons_of_mem p hq, hbad, ?_⟩
        rw [load_docs_loop, hparse, herr]
      · refine ⟨p, List.mem_cons_self p rest, hp, ?_⟩
        rw [load_docs_loop, parse_one_file, if_pos hp]

/-! ## Claim C7 -/

/-- Claim C7: for every list of paths with more than `limit` entries,
`load_multiple_documents` fails with the too-many-files message
regardless of the partitioner, so before any file is parsed, and returns
no partial manifest and no documents. -/
theorem too_many_files_rejected (partitionFn : String → List Element)
    (hash_path abspath : String → String) (paths : List String)
    (limit : Nat) (h : paths.length > limit) :
    load_multiple_documents partitionFn hash_path abspath paths limit =
      .error (tooManyFilesMessage limit) := by
  rw [load_multiple_documents, if_pos h]

/-- Witness for C7: six paths against the default limit of five are
rejected, with unsupported extensions never even examined. -/
theorem too_many_files_rejected_witness :
    (["a.txt", "b.txt", "c.txt", "d.txt", "e.txt", "f.zzz"].length > 5) ∧
    load_multiple_documents (fun _ => []) (fun _ => "h") (fun p => p)
        ["a.txt", "b.txt", "c.txt", "d.txt", "e.txt", "f.zzz"] 5 =
      .error (tooManyFilesMessage 5) :=
  ⟨by decide,
   too_many_files_rejected (fun _ => []) (fun _ => "h") (fun p => p)
     ["a.txt", "b.txt", "c.txt", "d.txt", "e.txt", "f.zzz"] 5 (by decide)⟩

/-! ## Claim C4 -/

/-- Claim C4: for every batch within the limit whose files all have a
supported extension, ingestion succeeds, and the manifest has exactly
one entry per input path, in upload order, with the entry at 0-based
position `j` labelled `[j + 1]` and carrying that path's name, absolute
path and extension — a file whose partition yields zero elements (the
partitioner is universally quantified) still gets its entry. -/
theorem manifest_one_entry_per_path (partitionFn : String → List Element)
    (hash_path abspath : String → String) (paths : List String)
    (limit : Nat) (hlen : paths.length ≤ limit)
    (hsupp : ∀ p ∈ paths, extOf p ∈ SUPPORTED_EXTS) :
    ∃ (ds : List Document) (ms : List ManifestEntry),
      load_multiple_documents partitionFn hash_path abspath paths limit =
        .ok (ds, ms) ∧
      ms.length = paths.length ∧
      ∀ j p, paths[j]? = some p →
        ms[j]? = some ({ file_label := "[" ++ toString (j + 1) ++ "]"
                         source_id := hash_path p
                         filename := pyBasename p
                         path := abspath p
                         ext := extOf p } : ManifestEntry) := by
  obtain ⟨ds, ms, hloop, hmslen, hget⟩ :=
    load_docs_loop_manifest partitionFn hash_path abspath paths 1 hsupp
  refine ⟨ds, ms, ?_, hmslen, ?_⟩
  · rw [load_multiple_documents, if_neg (by omega), hloop]
  · intro j p hp
    have := hget j p hp
    have harith : 1 + j = j + 1 := by omega
    rw [harith] at this
    exact this

/-- Witness for C4: two files, one of which partitions to no elements,
both get their manifest entries labelled `[1]` and `[2]`. -/
theorem manifest_one_entry_per_path_witness :
    (["dir/a.txt", "dir/b.md"].length ≤ 5 ∧
      ∀ p ∈ ["dir/a.txt", "dir/b.md"], extOf p ∈ SUPPORTED_EXTS) ∧
    ∃ (ds : List Document) (ms : List ManifestEntry),
      load_multiple_documents
          (fun p => if p = "dir/a.txt" then [⟨"hello", some "Title"⟩] else [])
          (fun p => "id-" ++ p) (fun p => "/abs/" ++ p)
          ["dir/a.txt", "dir/b.md"] 5 = .ok (ds, ms) ∧
      ms.length = ["dir/a.txt", "dir/b.md"].length ∧
      ∀ j p, ["dir/a.txt", "dir/b.md"][j]? = some p →
        ms[j]? = some ({ file_label := "[" ++ toString (j + 1) ++ "]"
                         source_id := "id-" ++ p
                         filename := pyBasename p
                         path := "/abs/" ++ p
                         ext := extOf p } : ManifestEntry) :=
  ⟨⟨by decide, by decide⟩,
   manifest_one_entry_per_path
     (fun p => if p = "dir/a.txt" then [⟨"hello", some "Title"⟩] else [])
     (fun p => "id-" ++ p) (fun p => "/abs/" ++ p)
     ["dir/a.txt", "dir/b.md"] 5 (by decide) (by decide)⟩

/-! ## Claim C8 -/

/-- Claim C8: when the batch is within the limit and contains a file
with an unsupported extension, ingestion fails with the
unsupported-format `ValueError` of such a file — fatal to the whole
call, no skip-and-continue — and the message names the rejected
extension and the sorted supported set. -/
theorem unsupported_format_fatal (partitionFn : String → List Element)
    (hash_path abspath : String → String) (paths : List String)
    (limit : Nat) (p : String) (hlen : paths.length ≤ limit)
    (hmem : p ∈ paths) (hbad : extOf p ∉ SUPPORTED_EXTS) :
    ∃ q ∈ paths, extOf q ∉ SUPPORTED_EXTS ∧
      load_multiple_documents partitionFn hash_path abspath paths limit =
        .error (unsupportedFormatMessage (extOf q)) ∧
      unsupportedFormatMessage (extOf q) =
        "暂不支持的文件类型: " ++ extOf q ++
          "（支持：.docx, .htm, .html, .md, .pdf, .pptx, .txt）" := by
  obtain ⟨q, hq, hqbad, herr⟩ :=
    load_docs_loop_unsupported partitionFn hash_path abspath paths 1
      ⟨p, hmem, hbad⟩
  refine ⟨q, hq, hqbad, ?_, ?_⟩
  · rw [load_multiple_documents, if_neg (by omega), herr]
  · simp only [unsupportedFormatMessage, String.append_assoc]
    congr 1

/-- Witness for C8: a batch of two files where the second has the
unsupported extension `.zzz` fails with the message naming `.zzz` and
the supported set. -/
theorem unsupported_format_fatal_witness :
    (["a.txt", "b.zzz"].length ≤ 5 ∧ "b.zzz" ∈ ["a.txt", "b.zzz"] ∧
      extOf "b.zzz" ∉ SUPPORTED_EXTS) ∧
    ∃ q ∈ ["a.txt", "b.zzz"], extOf q ∉ SUPPORTED_EXTS ∧
      load_multiple_documents (fun _ => [⟨"hello", none⟩]) (fun p => p)
          (fun p => p) ["a.txt", "b.zzz"] 5 =
        .error (unsupportedFormatMessage (extOf q)) ∧
      unsupportedFormatMessage (extOf q) =
        "暂不支持的文件类型: " ++ extOf q ++
          "（支持：.docx, .htm, .html, .md, .pdf, .pptx, .txt）" :=
  ⟨⟨by decide, by decide, by decide⟩,
   unsupported_format_fatal (fun _ => [⟨"hello", none⟩]) (fun p => p)
     (fun p => p) ["a.txt", "b.zzz"] 5 "b.zzz" (by decide) (by decide)
     (by decide)⟩

/-! ## Chunker lemmas -/

/-- Every chunk emitted by the span loop satisfies
`char_end = char_start + length of its text`. -/
lemma chunk_spans_loop_char_end (uuid : Nat → String) (co : Nat)
    (m : DocMeta) :
    ∀ (spans : List String) (idx start ctr : Nat),
      ∀ c ∈ (chunk_spans_loop uuid co m spans idx start ctr).1,
        c.metadata.char_end = c.metadata.char_start + c.page_content.length := by
  intro spans
  induction spans with
  | nil =>
      intro idx start ctr c hc
      simp only [chunk_spans_loop] at hc
      simp at hc
  | cons s rest ih =>
      intro idx start ctr c hc
      simp only [chunk_spans_loop] at hc
      by_cases h : normalize_text s = ""
      · rw [if_pos h] at hc
        exact ih _ _ _ c hc
      · rw [if_neg h] at hc
        rcases List.mem_cons.mp hc with rfl | hc2
        · rfl
        · exact ih _ _ _ c hc2

/-- The provenance record of every chunk emitted by the span loop is the
document metadata it was called with. -/
lemma chunk_spans_loop_prov (uuid : Nat → String) (co : Nat) (m : DocMeta) :
    ∀ (spans : List String) (idx start ctr : Nat),
      ∀ c ∈ (chunk_spans_loop uuid co m spans idx start ctr).1,
        c.metadata.prov = m := by
  intro spans
  induction spans with
  | nil =>
      intro idx start ctr c hc
      simp only [chunk_spans_loop] at hc
      simp at hc
  | cons s rest ih =>
      intro idx start ctr c hc
      simp only [chunk_spans_loop] at hc
      by_cases h : normalize_text s = ""
      · rw [if_pos h] at hc
        exact ih _ _ _ c hc
      · rw [if_neg h] at hc
        rcases List.mem_cons.mp hc with rfl | hc2
        · rfl
        · exact ih _ _ _ c hc2

/-- The first chunk the span loop emits starts at the cursor value the
loop was entered with. -/
lemma chunk_spans_loop_head_start (uuid : Nat → String) (co : Nat)
    (m : DocMeta) :
    ∀ (spans : List String) (idx start ctr : Nat),
      ∀ c ∈ ((chunk_spans_loop uuid co m spans idx start ctr).1).head?,
        c.metadata.char_start = start := by
  intro spans
  induction spans with
  | nil =>
      intro idx start ctr c hc
      simp only [chunk_spans_loop] at hc
      simp at hc
  | cons s rest ih =>
      intro idx start ctr c hc
      simp only [chunk_spans_loop] at hc
      by_cases h : normalize_text s = ""
      · rw [if_pos h] at hc
        exact ih _ _ _ c hc
      · rw [if_neg h] at hc
        simp only [List.head?_cons, Option.mem_def, Option.some.injEq] at hc
        subst hc
        rfl

/-- Consecutive chunks emitted by the span loop overlap: the next chunk
starts no later than the previous one ends. -/
lemma chunk_spans_loop_chain (uuid : Nat → String) (co : Nat)
    (m : DocMeta) :
    ∀ (spans : List String) (idx start ctr : Nat),
      List.Chain' (fun a b => b.metadata.char_start ≤ a.metadata.char_end)
        (chunk_spans_loop uuid co m spans idx start ctr).1 := by
  intro spans
  induction spans with
  | nil =>
      intro idx start ctr
      simp only [chunk_spans_loop]
      exact List.chain'_nil
  | cons s rest ih =>
      intro idx start ctr
      simp only [chunk_spans_loop]
      by_cases h : normalize_text s = ""
      · rw [if_pos h]
        exact ih _ _ _
      · rw [if_neg h]
        refine List.chain'_cons'.mpr ⟨?_, ih _ _ _⟩
        intro b hb
        have hstart := chunk_spans_loop_head_start uuid co m rest (idx + 1)
          (start + (normalize_text s).length - co) (ctr + 1) b hb
        rw [hstart]
        exact Nat.sub_le _ _

/-- Every chunk emitted by the span loop has `chunk_index ≥` the
enumeration index the loop was entered with. -/
lemma chunk_spans_loop_idx_le (uuid : Nat → String) (co : Nat)
    (m : DocMeta) :
    ∀ (spans : List String) (idx start ctr : Nat),
      ∀ c ∈ (chunk_spans_loop uuid co m spans idx start ctr).1,
        idx ≤ c.metadata.chunk_index := by
  intro spans
  induction spans with
  | nil =>
      intro idx start ctr c hc
      simp only [chunk_spans_loop] at hc
      simp at hc
  | cons s rest ih =>
      intro idx start ctr c hc
      simp only [chunk_spans_loop] at hc
      by_cases h : normalize_text s = ""
      · rw [if_pos h] at hc
        exact Nat.le_of_succ_le (ih _ _ _ c hc)
      · rw [if_neg h] at hc
        rcases List.mem_cons.mp hc with rfl | hc2
        · exact Nat.le_refl _
        · exact Nat.le_of_succ_le (ih _ _ _ c hc2)

/-- The chunk_index values emitted by the span loop are strictly
increasing. -/
lemma chunk_spans_loop_index_chain (uuid : Nat → String) (co : Nat)
    (m : DocMeta) :
    ∀ (spans : List String) (idx start ctr : Nat),
      List.Chain' (fun a b => a.metadata.chunk_index < b.metadata.chunk_index)
        (chunk_spans_loop uuid co m spans idx start ctr).1 := by
  intro spans
  induction spans with
  | nil =>
      intro idx start ctr
      simp only [chunk_spans_loop]
      exact List.chain'_nil
  | cons s rest ih =>
      intro idx start ctr
      simp only [chunk_spans_loop]
      by_cases h : normalize_text s = ""
      · rw [if_pos h]
        exact ih _ _ _
      · rw [if_neg h]
        refine List.chain'_cons'.mpr ⟨?_, ih _ _ _⟩
        intro b hb
        have hle := chunk_spans_loop_idx_le uuid co m rest (idx + 1)
          (start + (normalize_text s).length - co) (ctr + 1) b
          (List.mem_of_mem_head? hb)
        exact Nat.lt_of_succ_le hle

/-- When no span trims to empty, the emitted chunk_index values are the
enumeration indices `idx, idx + 1, …` of all spans. -/
lemma chunk_spans_loop_index_no_gap (uuid : Nat → String) (co : Nat)
    (m : DocMeta) :
    ∀ (spans : List String) (idx start ctr : Nat),
      (∀ s ∈ spans, normalize_text s ≠ "") →
      ((chunk_spans_loop uuid co m spans idx start ctr).1).map
          (fun c => c.metadata.chunk_index) =
        List.range' idx spans.length := by
  intro spans
  induction spans with
  | nil =>
      intro idx start ctr _
      simp [chunk_spans_loop]
  | cons s rest ih =>
      intro idx start ctr hne
      simp only [chunk_spans_loop]
      rw [if_neg (hne s (List.mem_cons_self s rest))]
      simp only [List.map_cons, List.length_cons, List.range'_succ]
      rw [ih _ _ _ (fun q hq => hne q (List.mem_cons_of_mem s hq))]

/-- `char_end = char_start + length` lifted to the full output of
`split_documents`. -/
lemma split_docs_loop_char_end (split_text : Nat → Nat → String → List String)
    (uuid : Nat → String) (cs co : Nat) :
    ∀ (docs : List Document) (ctr : Nat),
      ∀ c ∈ split_docs_loop split_text uuid cs co docs ctr,
        c.metadata.char_end = c.metadata.char_start + c.page_content.length := by
  intro docs
  induction docs with
  | nil =>
      intro ctr c hc
      simp only [split_docs_loop] at hc
      simp at hc
  | cons d rest ih =>
      intro ctr c hc
      simp only [split_docs_loop] at hc
      rcases List.mem_append.mp hc with hc1 | hc2
      · exact chunk_spans_loop_char_end uuid co d.metadata _ _ _ _ c hc1
      · exact ih _ c hc2

/-- A concrete provenance record shared by the concrete examples below. -/
def exampleMeta : DocMeta :=
  { file_label := "[1]"
    source_id := "id1"
    source := "A.txt"
    path := "/abs/A.txt"
    ext := ".txt" }

/-! ## Claim C2 -/

/-- Claim C2: with `0 ≤ chunk_overlap < chunk_size`, every chunk emitted
by the chunker satisfies `char_end - char_start = length of its text`,
and, whenever `chunk_overlap > 0`, each chunk of a merged body starts no
later than the previous chunk of that body ends; this holds for every
splitter output (the langchain splitter is universally quantified). -/
theorem chunk_offset_invariant (split_text : Nat → Nat → String → List String)
    (uuid : Nat → String) (chunk_size chunk_overlap : Nat)
    (hov : chunk_overlap < chunk_size) (docs : List Document) :
    (∀ c ∈ split_documents split_text uuid chunk_size chunk_overlap docs,
        c.metadata.char_end - c.metadata.char_start = c.page_content.length) ∧
    (0 < chunk_overlap → ∀ d ∈ docs, ∀ ctr,
        List.Chain' (fun a b => b.metadata.char_start ≤ a.metadata.char_end)
          (chunk_spans_loop uuid chunk_overlap d.metadata
            (split_text chunk_size chunk_overlap d.page_content) 0 0 ctr).1) := by
  constructor
  · intro c hc
    have := split_docs_loop_char_end split_text uuid chunk_size chunk_overlap
      docs 0 c hc
    omega
  · intro _ d _ ctr
    exact chunk_spans_loop_chain uuid chunk_overlap d.metadata _ _ _ _

/-- Witness for C2 at a concrete splitter output with two overlapping
spans. -/
theorem chunk_offset_invariant_witness :
    (50 : Nat) < 500 ∧
    ((∀ c ∈ split_documents (fun _ _ _ => ["abcde", "defgh"])
          (fun n => toString n) 500 50
          [{ page_content := "abcdefgh", metadata := exampleMeta }],
        c.metadata.char_end - c.metadata.char_start = c.page_content.length) ∧
     (0 < 50 → ∀ d ∈ [({ page_content := "abcdefgh",
                          metadata := exampleMeta } : Document)], ∀ ctr,
        List.Chain' (fun a b => b.metadata.char_start ≤ a.metadata.char_end)
          (chunk_spans_loop (fun n => toString n) 50 d.metadata
            ((fun _ _ _ => ["abcde", "defgh"]) 500 50 d.page_content)
            0 0 ctr).1)) :=
  ⟨by decide,
   chunk_offset_invariant (fun _ _ _ => ["abcde", "defgh"])
     (fun n => toString n) 500 50 (by decide)
     [{ page_content := "abcdefgh", metadata := exampleMeta }]⟩

/-! ## Claim C6 -/

/-- Claim C6: the chunker processes the merged bodies in order, emitting
for each body `d` the segment produced by the span loop over the
splitter output for `d`, entered with `d`'s own metadata; and every
chunk of the segment emitted for `d` carries, as its provenance record,
exactly `d`'s five metadata fields — the chunk metadata adds only
`chunk_index`, `chunk_id`, `char_start`, `char_end`, which the
`ChunkMeta` shape makes explicit. So each chunk is bound to the body it
was emitted from, not merely to some body with equal fields. -/
theorem chunk_provenance_unchanged
    (split_text : Nat → Nat → String → List String) (uuid : Nat → String)
    (chunk_size chunk_overlap : Nat) :
    (∀ (docs : List Document),
        split_documents split_text uuid chunk_size chunk_overlap docs =
          split_docs_loop split_text uuid chunk_size chunk_overlap docs 0) ∧
    (∀ (d : Document) (rest : List Document) (ctr : Nat),
        split_docs_loop split_text uuid chunk_size chunk_overlap (d :: rest)
            ctr =
          (chunk_spans_loop uuid chunk_overlap d.metadata
              (split_text chunk_size chunk_overlap d.page_content) 0 0 ctr).1 ++
            split_docs_loop split_text uuid chunk_size chunk_overlap rest
              (chunk_spans_loop uuid chunk_overlap d.metadata
                (split_text chunk_size chunk_overlap d.page_content)
                0 0 ctr).2) ∧
    (∀ (d : Document) (ctr : Nat),
        ∀ c ∈ (chunk_spans_loop uuid chunk_overlap d.metadata
            (split_text chunk_size chunk_overlap d.page_content) 0 0 ctr).1,
          c.metadata.prov = d.metadata) :=
  ⟨fun _ => rfl,
   fun _ _ _ => rfl,
   fun d ctr c hc => chunk_spans_loop_prov uuid chunk_overlap d.metadata
     (split_text chunk_size chunk_overlap d.page_content) 0 0 ctr c hc⟩

/-- Witness for C6: a concrete chunk of the segment emitted for a
concrete body carries that body's five provenance fields unchanged. -/
theorem chunk_provenance_unchanged_witness :
    ({ page_content := "abcde"
       metadata := { prov := exampleMeta
                     chunk_index := 0
                     chunk_id := "0"
                     char_start := 0
                     char_end := 5 } } : ChunkDoc) ∈
      (chunk_spans_loop (fun n => toString n) 50
        ({ page_content := "abcde", metadata := exampleMeta } : Document).metadata
        ((fun _ _ _ => ["abcde"]) 500 50
          ({ page_content := "abcde", metadata := exampleMeta } : Document).page_content)
        0 0 0).1 ∧
    ({ page_content := "abcde"
       metadata := { prov := exampleMeta
                     chunk_index := 0
                     chunk_id := "0"
                     char_start := 0
                     char_end := 5 } } : ChunkDoc).metadata.prov =
      ({ page_content := "abcde", metadata := exampleMeta } : Document).metadata :=
  ⟨by decide,
   (chunk_provenance_unchanged (fun _ _ _ => ["abcde"]) (fun n => toString n)
       500 50).2.2
     { page_content := "abcde", metadata := exampleMeta } 0
     { page_content := "abcde"
       metadata := { prov := exampleMeta
                     chunk_index := 0
                     chunk_id := "0"
                     char_start := 0
                     char_end := 5 } }
     (by decide)⟩

/-! ## Claim C3 -/

/-- The chunker output on a splitter result whose middle span is
whitespace-only. -/
def chunkIndexGapChunks : List ChunkDoc :=
  split_documents (fun _ _ _ => ["a", " ", "b"]) (fun n => toString n) 500 50
    [{ page_content := "a \nb", metadata := exampleMeta }]

/-- Counterexample to C3 as stated: when the splitter emits a span that
is empty after trimming, the span is dropped but its `enumerate` index is
still consumed, so the emitted chunk_index values are `[0, 2]`, not the
gap-free `0, 1, 2, …` numbering the claim requires. -/
theorem chunk_index_gap_counterexample :
    chunkIndexGapChunks.map (fun c => c.metadata.chunk_index) = [0, 2] ∧
    chunkIndexGapChunks.map (fun c => c.metadata.chunk_index) ≠
      List.range chunkIndexGapChunks.length := by
  constructor
  · decide
  · decide

/-- Claim C3 (amended): `chunk_index` is the span's 0-based position in
the splitter's output, so a dropped span still consumes an index: the
emitted chunk_index values are strictly increasing, and they are exactly
`0, 1, 2, …` when no span of the body is empty after trimming. -/
theorem chunk_index_amended (split_text : Nat → Nat → String → List String)
    (uuid : Nat → String) (chunk_size chunk_overlap : Nat) (d : Document)
    (ctr : Nat) :
    List.Chain' (fun a b => a.metadata.chunk_index < b.metadata.chunk_index)
      (chunk_spans_loop uuid chunk_overlap d.metadata
        (split_text chunk_size chunk_overlap d.page_content) 0 0 ctr).1 ∧
    ((∀ s ∈ split_text chunk_size chunk_overlap d.page_content,
        normalize_text s ≠ "") →
      ((chunk_spans_loop uuid chunk_overlap d.metadata
          (split_text chunk_size chunk_overlap d.page_content) 0 0 ctr).1).map
          (fun c => c.metadata.chunk_index) =
        List.range (split_text chunk_size chunk_overlap d.page_content).length) := by
  constructor
  · exact chunk_spans_loop_index_chain uuid chunk_overlap d.metadata _ _ _ _
  · intro hne
    rw [chunk_spans_loop_index_no_gap uuid chunk_overlap d.metadata _ _ _ _ hne,
      List.range_eq_range']

/-- Witness for the amended C3 at a splitter output with no empty
spans. -/
theorem chunk_index_amended_witness :
    (∀ s ∈ ["ab", "cd"], normalize_text s ≠ "") ∧
    (List.Chain' (fun a b => a.metadata.chunk_index < b.metadata.chunk_index)
      (chunk_spans_loop (fun n => toString n) 50 exampleMeta
        ((fun _ _ _ => ["ab", "cd"]) 500 50 "abcd") 0 0 0).1 ∧
    ((∀ s ∈ (fun _ _ _ => ["ab", "cd"]) 500 50 "abcd",
        normalize_text s ≠ "") →
      ((chunk_spans_loop (fun n => toString n) 50 exampleMeta
          ((fun _ _ _ => ["ab", "cd"]) 500 50 "abcd") 0 0 0).1).map
          (fun c => c.metadata.chunk_index) =
        List.range ((fun _ _ _ => ["ab", "cd"]) 500 50 "abcd").length)) :=
  ⟨by decide,
   chunk_index_amended (fun _ _ _ => ["ab", "cd"]) (fun n => toString n)
     500 50 { page_content := "abcd", metadata := exampleMeta } 0⟩

/-! ## Citation footer lemmas -/

instance : IsTrans ManifestEntry labelLE :=
  ⟨fun _ _ _ hab hbc => Int.le_trans hab hbc⟩

instance : IsTotal ManifestEntry labelLE :=
  ⟨fun a b => Int.le_total (label_key a.file_label) (label_key b.file_label)⟩

/-- When no manifest entry's source id is used, the footer of a
non-empty used set is the bare title line. -/
lemma build_citation_footer_no_match (S : List String)
    (M : List ManifestEntry) (hS : S ≠ [])
    (hnone : ∀ m ∈ M, m.source_id ∉ S) :
    build_citation_footer S M = citationTitle := by
  have hfilter : M.filter (fun m => S.contains m.source_id) = [] :=
    List.filter_eq_nil_iff.mpr (fun m hm hc =>
      hnone m hm (List.elem_iff.mp hc))
  rw [build_citation_footer, if_neg hS, citationItems, hfilter]
  rfl

/-! ## Claim C1 -/

/-- The first manifest entry of the C1 counterexample: its label parses
to an integer above the `10 ** 9` sentinel. -/
def c1EntryA : ManifestEntry :=
  { file_label := "[2000000000]"
    source_id := "idA"
    filename := "A.txt"
    path := "/abs/A.txt"
    ext := ".txt" }

/-- The second manifest entry of the C1 counterexample: its label does
not parse as an integer. -/
def c1EntryB : ManifestEntry :=
  { file_label := "[x]"
    source_id := "idB"
    filename := "B.txt"
    path := "/abs/B.txt"
    ext := ".txt" }

/-- The manifest of the C1 counterexample. -/
def c1Manifest : List ManifestEntry := [c1EntryA, c1EntryB]

/-- The used source ids of the C1 counterexample. -/
def c1UsedIds : List String := ["idA", "idB"]

/-- Counterexample to C1 as stated: `_label_key` maps an unparsable
label to the sentinel `10 ** 9`, so an entry whose label parses to
`2000000000 > 10 ** 9` sorts AFTER the unparsable entry, while the claim
requires entries with unparsable labels to be placed last. -/
theorem citation_footer_order_counterexample :
    build_citation_footer c1UsedIds c1Manifest =
      "参考/引用\n[x] B.txt（/abs/B.txt）\n[2000000000] A.txt（/abs/A.txt）" ∧
    build_citation_footer c1UsedIds c1Manifest ≠
      "参考/引用\n[2000000000] A.txt（/abs/A.txt）\n[x] B.txt（/abs/B.txt）" := by
  constructor
  · decide
  · decide

/-- Claim C1 (amended): the resolver returns `""` for an empty used set;
otherwise it renders the title line followed by one line
`{refLabel} {fileName}（{absolutePath}）` per manifest entry whose fileId
is used, ordered ascending by the key that assigns a parsable label its
integer and an unparsable label the sentinel `10 ** 9`, ties kept stably
in manifest order (so unparsable labels are last exactly when every
parsable label is below `10 ** 9`). -/
theorem citation_footer_amended (S : List String) (M : List ManifestEntry)
    (a b : ManifestEntry) :
    (S = [] → build_citation_footer S M = "") ∧
    (S ≠ [] →
      build_citation_footer S M =
        String.intercalate "\n"
          (citationTitle :: (citationItems S M).map citationLine) ∧
      (citationItems S M).Perm
        (M.filter (fun m => S.contains m.source_id)) ∧
      (citationItems S M).Pairwise labelLE ∧
      ([a, b].Sublist (M.filter (fun m => S.contains m.source_id)) →
        labelLE a b → [a, b].Sublist (citationItems S M))) := by
  constructor
  · intro h
    rw [build_citation_footer, if_pos h]
  · intro h
    refine ⟨by rw [build_citation_footer, if_neg h], ?_, ?_, ?_⟩
    · exact List.perm_insertionSort labelLE _
    · exact List.sorted_insertionSort labelLE _
    · intro hsub hle
      exact List.sublist_insertionSort (by simpa using hle) hsub

/-- Witness for the amended C1 on the concrete two-entry manifest. -/
theorem citation_footer_amended_witness :
    (c1UsedIds ≠ []) ∧
    (build_citation_footer c1UsedIds c1Manifest =
        String.intercalate "\n"
          (citationTitle :: (citationItems c1UsedIds c1Manifest).map citationLine) ∧
      (citationItems c1UsedIds c1Manifest).Perm
        (c1Manifest.filter (fun m => c1UsedIds.contains m.source_id)) ∧
      (citationItems c1UsedIds c1Manifest).Pairwise labelLE ∧
      ([c1EntryA, c1EntryB].Sublist
          (c1Manifest.filter (fun m => c1UsedIds.contains m.source_id)) →
        labelLE c1EntryA c1EntryB →
        [c1EntryA, c1EntryB].Sublist (citationItems c1UsedIds c1Manifest))) :=
  ⟨by decide,
   (citation_footer_amended c1UsedIds c1Manifest c1EntryA c1EntryB).2
     (by decide)⟩

/-! ## Claim C10 -/

/-- Claim C10: when the used set is non-empty but no manifest entry's
fileId is in it, the resolver returns the bare (non-empty) title line,
and the answer assembly appends this title-only footer to the answer. -/
theorem title_only_footer :
    (∀ (S : List String) (M : List ManifestEntry), S ≠ [] →
        (∀ m ∈ M, m.source_id ∉ S) →
        build_citation_footer S M = citationTitle ∧ citationTitle ≠ "") ∧
    (∀ (answer : String) (src_docs : List RetrievedDoc)
        (M : List ManifestEntry) (max_snippet_chars : Nat),
        used_source_ids max_snippet_chars src_docs ≠ [] →
        (∀ m ∈ M, m.source_id ∉ used_source_ids max_snippet_chars src_docs) →
        (get_rag_response answer src_docs M max_snippet_chars true).footer =
          citationTitle ∧
        (get_rag_response answer src_docs M max_snippet_chars true).answer =
          answer ++ "\n\n" ++ citationTitle) := by
  constructor
  · intro S M hS hnone
    exact ⟨build_citation_footer_no_match S M hS hnone, by decide⟩
  · intro answer src_docs M max_snippet_chars hne hnone
    simp only [used_source_ids] at hne hnone
    have hfooter :
        (get_rag_response answer src_docs M max_snippet_chars true).footer =
          citationTitle := by
      simp only [get_rag_response]
      rw [if_pos hne]
      exact build_citation_footer_no_match _ M hne hnone
    refine ⟨hfooter, ?_⟩
    simp only [get_rag_response] at hfooter ⊢
    rw [hfooter]
    rw [if_pos ⟨by trivial, by decide⟩]

/-- Witness for C10: one retrieved document whose source id matches no
manifest entry yields the bare title footer, appended to the answer. -/
theorem title_only_footer_witness :
    ((["sid"] : List String) ≠ [] ∧
      used_source_ids 300
        [{ page_content := "text", file_label := "[1]", source_id := "sid",
           source := "A.txt", path := "/abs/A.txt", ext := ".txt",
           score := none }] ≠ []) ∧
    ((build_citation_footer ["sid"]
        [{ file_label := "[1]", source_id := "other", filename := "A.txt",
           path := "/abs/A.txt", ext := ".txt" }] = citationTitle ∧
      citationTitle ≠ "") ∧
     ((get_rag_response "ans"
        [{ page_content := "text", file_label := "[1]", source_id := "sid",
           source := "A.txt", path := "/abs/A.txt", ext := ".txt",
           score := none }]
        [{ file_label := "[1]", source_id := "other", filename := "A.txt",
           path := "/abs/A.txt", ext := ".txt" }] 300 true).footer =
          citationTitle ∧
      (get_rag_response "ans"
        [{ page_content := "text", file_label := "[1]", source_id := "sid",
           source := "A.txt", path := "/abs/A.txt", ext := ".txt",
           score := none }]
        [{ file_label := "[1]", source_id := "other", filename := "A.txt",
           path := "/abs/A.txt", ext := ".txt" }] 300 true).answer =
          "ans" ++ "\n\n" ++ citationTitle)) :=
  ⟨⟨by decide, by decide⟩,
   ⟨title_only_footer.1 ["sid"]
      [{ file_label := "[1]", source_id := "other", filename := "A.txt",
         path := "/abs/A.txt", ext := ".txt" }] (by decide) (by decide),
    title_only_footer.2 "ans"
      [{ page_content := "text", file_label := "[1]", source_id := "sid",
         source := "A.txt", path := "/abs/A.txt", ext := ".txt",
         score := none }]
      [{ file_label := "[1]", source_id := "other", filename := "A.txt",
         path := "/abs/A.txt", ext := ".txt" }] 300 (by decide) (by decide)⟩⟩

/-! ## Reference extraction lemmas -/

/-- Membership in the used set is preserved by a set add. -/
lemma mem_addUsed_of_mem (used : List String) (y x : String)
    (h : x ∈ used) : x ∈ addUsed used y := by
  rw [addUsed]
  split
  · exact h
  · exact List.mem_append_left _ h

/-- The added id is a member of the used set afterwards. -/
lemma mem_addUsed_self (used : List String) (y : String) :
    y ∈ addUsed used y := by
  rw [addUsed]
  split
  · exact List.elem_iff.mp (by assumption)
  · exact List.mem_append_right _ (List.mem_cons_self y [])

/-- A member of the used set after a set add was a member before or is
the added id. -/
lemma mem_addUsed_elim (used : List String) (y x : String)
    (h : x ∈ addUsed used y) : x ∈ used ∨ x = y := by
  rw [addUsed] at h
  revert h
  split
  · exact fun h => Or.inl h
  · intro h
    rcases List.mem_append.mp h with h1 | h2
    · exact Or.inl h1
    · exact Or.inr (List.mem_singleton.mp h2)

/-- Every id collected into the used set by the extraction loop is the
source id of some reference in the produced reference list, provided
this held of the accumulators. -/
lemma extract_refs_used_from_refs (max_snippet_chars : Nat) :
    ∀ (docs : List RetrievedDoc) (seen : List (String × String × String))
      (used : List String) (refs : List Reference),
      (∀ x ∈ used, ∃ r ∈ refs, r.source_id = x) →
      ∀ x ∈ (extract_refs max_snippet_chars docs seen used refs).1,
        ∃ r ∈ (extract_refs max_snippet_chars docs seen used refs).2,
          r.source_id = x := by
  intro docs
  induction docs with
  | nil =>
      intro seen used refs hinv x hx
      simpa [extract_refs] using hinv x (by simpa [extract_refs] using hx)
  | cons d rest ih =>
      intro seen used refs hinv x hx
      simp only [extract_refs] at hx ⊢
      by_cases hseen : seen.contains (d.file_label, sourceOf d,
        snippetOf max_snippet_chars d)
      · rw [if_pos hseen] at hx ⊢
        exact ih _ _ _ hinv x hx
      · rw [if_neg hseen] at hx ⊢
        refine ih _ _ _ ?_ x hx
        intro y hy
        by_cases hid : d.source_id ≠ ""
        · rw [if_pos hid] at hy
          rcases mem_addUsed_elim used d.source_id y hy with h1 | h2
          · obtain ⟨r, hr, hrid⟩ := hinv y h1
            exact ⟨r, List.mem_append_left _ hr, hrid⟩
          · exact ⟨referenceOf max_snippet_chars d,
              List.mem_append_right _ (List.mem_cons_self _ []), h2.symm⟩
        · rw [if_neg hid] at hy
          obtain ⟨r, hr, hrid⟩ := hinv y hy
          exact ⟨r, List.mem_append_left _ hr, hrid⟩

/-- When every retrieved document carries a non-empty source id, every
produced reference's source id is in the produced used set, provided
this held of the accumulators. -/
lemma extract_refs_refs_in_used (max_snippet_chars : Nat) :
    ∀ (docs : List RetrievedDoc) (seen : List (String × String × String))
      (used : List String) (refs : List Reference),
      (∀ d ∈ docs, d.source_id ≠ "") →
      (∀ r ∈ refs, r.source_id ∈ used) →
      ∀ r ∈ (extract_refs max_snippet_chars docs seen used refs).2,
        r.source_id ∈ (extract_refs max_snippet_chars docs seen used refs).1 := by
  intro docs
  induction docs with
  | nil =>
      intro seen used refs _ hinv r hr
      simpa [extract_refs] using hinv r (by simpa [extract_refs] using hr)
  | cons d rest ih =>
      intro seen used refs hne hinv r hr
      simp only [extract_refs] at hr ⊢
      have hd : d.source_id ≠ "" := hne d (List.mem_cons_self d rest)
      by_cases hseen : seen.contains (d.file_label, sourceOf d,
        snippetOf max_snippet_chars d)
      · rw [if_pos hseen] at hr ⊢
        exact ih _ _ _ (fun q hq => hne q (List.mem_cons_of_mem d hq)) hinv r hr
      · rw [if_neg hseen] at hr ⊢
        rw [if_pos hd] at hr ⊢
        refine ih _ _ _ (fun q hq => hne q (List.mem_cons_of_mem d hq)) ?_ r hr
        intro s hs
        rcases List.mem_append.mp hs with h1 | h2
        · exact mem_addUsed_of_mem used d.source_id s.source_id (hinv s h1)
        · rw [List.mem_singleton.mp h2]
          exact mem_addUsed_self used d.source_id

/-- Every produced reference either was in the accumulator or carries
the source id of one of the processed documents. -/
lemma extract_refs_refs_from_docs (max_snippet_chars : Nat) :
    ∀ (docs : List RetrievedDoc) (seen : List (String × String × String))
      (used : List String) (refs : List Reference),
      ∀ r ∈ (extract_refs max_snippet_chars docs seen used refs).2,
        r ∈ refs ∨ ∃ d ∈ docs, r.source_id = d.source_id := by
  intro docs
  induction docs with
  | nil =>
      intro seen used refs r hr
      exact Or.inl (by simpa [extract_refs] using hr)
  | cons d rest ih =>
      intro seen used refs r hr
      simp only [extract_refs] at hr
      by_cases hseen : seen.contains (d.file_label, sourceOf d,
        snippetOf max_snippet_chars d)
      · rw [if_pos hseen] at hr
        rcases ih _ _ _ r hr with h1 | ⟨e, he, hid⟩
        · exact Or.inl h1
        · exact Or.inr ⟨e, List.mem_cons_of_mem d he, hid⟩
      · rw [if_neg hseen] at hr
        rcases ih _ _ _ r hr with h1 | ⟨e, he, hid⟩
        · rcases List.mem_append.mp h1 with h2 | h3
          · exact Or.inl h2
          · refine Or.inr ⟨d, List.mem_cons_self d rest, ?_⟩
            rw [List.mem_singleton.mp h3]
            rfl
        · exact Or.inr ⟨e, List.mem_cons_of_mem d he, hid⟩

/-- Membership in the sorted citation items is membership in the
filtered manifest. -/
lemma mem_citationItems (used : List String) (manifest : List ManifestEntry)
    (m : ManifestEntry) :
    m ∈ citationItems used manifest ↔
      m ∈ manifest ∧ m.source_id ∈ used := by
  rw [citationItems]
  rw [List.Perm.mem_iff (List.perm_insertionSort labelLE _)]
  rw [List.mem_filter]
  exact and_congr_right (fun _ => ⟨fun h => List.elem_iff.mp h,
    fun h => List.elem_iff.mpr h⟩)

/-! ## Claim C5 -/

/-- Claim C5: for every retrieval result whose documents carry non-empty
source ids listed in the manifest (which holds of every chunk this
pipeline indexes), when the collected used set is non-empty the set of
fileIds of the manifest entries rendered in the footer equals the set of
distinct fileIds of the returned Reference list, and the response's
footer is exactly the rendering of those entries. -/
theorem footer_reference_consistency (answer : String)
    (src_docs : List RetrievedDoc) (manifest : List ManifestEntry)
    (max_snippet_chars : Nat) (append_footer : Bool)
    (hdocs : ∀ d ∈ src_docs, d.source_id ≠ "" ∧
      ∃ m ∈ manifest, m.source_id = d.source_id)
    (hne : used_source_ids max_snippet_chars src_docs ≠ []) :
    ((citationItems (used_source_ids max_snippet_chars src_docs)
        manifest).map (fun m => m.source_id)).toFinset =
      (((get_rag_response answer src_docs manifest max_snippet_chars
          append_footer).references).map (fun r => r.source_id)).toFinset ∧
    (get_rag_response answer src_docs manifest max_snippet_chars
        append_footer).footer =
      String.intercalate "\n"
        (citationTitle ::
          (citationItems (used_source_ids max_snippet_chars src_docs)
            manifest).map citationLine) := by
  have hrefs : (get_rag_response answer src_docs manifest max_snippet_chars
      append_footer).references =
      (extract_refs max_snippet_chars src_docs [] [] []).2 := rfl
  constructor
  · ext x
    simp only [List.mem_toFinset, List.mem_map, hrefs]
    constructor
    · rintro ⟨m, hm, rfl⟩
      have hmem := (mem_citationItems _ manifest m).mp hm
      obtain ⟨r, hr, hrid⟩ :=
        extract_refs_used_from_refs max_snippet_chars src_docs [] [] []
          (fun x hx => absurd hx (List.not_mem_nil x)) m.source_id hmem.2
      exact ⟨r, hr, hrid⟩
    · rintro ⟨r, hr, rfl⟩
      have hinused :=
        extract_refs_refs_in_used max_snippet_chars src_docs [] [] []
          (fun d hd => (hdocs d hd).1)
          (fun r hr => absurd hr (List.not_mem_nil r)) r hr
      rcases extract_refs_refs_from_docs max_snippet_chars src_docs [] [] []
          r hr with h1 | ⟨d, hd, hid⟩
      · exact absurd h1 (List.not_mem_nil r)
      · obtain ⟨m, hm, hmid⟩ := (hdocs d hd).2
        refine ⟨m, (mem_citationItems _ manifest m).mpr ⟨hm, ?_⟩, ?_⟩
        · rw [hmid, ← hid]
          exact hinused
        · rw [hmid, ← hid]
  · simp only [used_source_ids] at hne
    have hfooter : (get_rag_response answer src_docs manifest
        max_snippet_chars append_footer).footer =
        build_citation_footer
          (extract_refs max_snippet_chars src_docs [] [] []).1 manifest := by
      simp only [get_rag_response]
      rw [if_pos hne]
    rw [hfooter, build_citation_footer, if_neg hne]
    rfl

/-- The retrieved documents of the C5 witness. -/
def c5Docs : List RetrievedDoc :=
  [{ page_content := "alpha", file_label := "[1]", source_id := "idA",
     source := "A.txt", path := "/abs/A.txt", ext := ".txt", score := none },
   { page_content := "beta", file_label := "[2]", source_id := "idB",
     source := "B.txt", path := "/abs/B.txt", ext := ".txt", score := none }]

/-- The manifest of the C5 witness. -/
def c5Manifest : List ManifestEntry :=
  [{ file_label := "[1]", source_id := "idA", filename := "A.txt",
     path := "/abs/A.txt", ext := ".txt" },
   { file_label := "[2]", source_id := "idB", filename := "B.txt",
     path := "/abs/B.txt", ext := ".txt" }]

/-- Witness for C5: two retrieved documents from two manifest files
agree between footer entries and references. -/
theorem footer_reference_consistency_witness :
    ((∀ d ∈ c5Docs, d.source_id ≠ "" ∧
        ∃ m ∈ c5Manifest, m.source_id = d.source_id) ∧
      used_source_ids 300 c5Docs ≠ []) ∧
    ((citationItems (used_source_ids 300 c5Docs) c5Manifest).map
        (fun m => m.source_id)).toFinset =
      (((get_rag_response "ans" c5Docs c5Manifest 300 true).references).map
        (fun r => r.source_id)).toFinset :=
  ⟨⟨by decide, by decide⟩,
   (footer_reference_consistency "ans" c5Docs c5Manifest 300 true
     (by decide) (by decide)).1⟩

/-! ## Claim C9 -/

/-- Claim C9: `create_rag_pipeline` invoked without chunking arguments
runs the chunker with its declared defaults `chunk_size = 500`,
`chunk_overlap = 50` (and `load_multiple_documents` with its default
limit 5), chunking every merged body with these values. The chunker's
own Python defaults (100/30) never apply on this path because the
pipeline always passes its parameters explicitly. -/
theorem default_chunk_parameters (partitionFn : String → List Element)
    (hash_path abspath : String → String)
    (split_text : Nat → Nat → String → List String) (uuid : Nat → String)
    (file_paths : List String) :
    create_rag_pipeline_chunks_default partitionFn hash_path abspath
        split_text uuid file_paths =
      (match load_multiple_documents partitionFn hash_path abspath
          file_paths 5 with
       | .error e => .error e
       | .ok (docs, manifest) =>
           .ok (split_documents split_text uuid 500 50
                  (merge_docs_by_file docs), manifest)) := rfl

end RagAssistant
